import Mathlib

/-!
Verification of the qilin array-backed stack (`src/qilin/stack/base.py`,
`src/qilin/stack/concrete.py`) against its specification.

The embedding models `ArrayStack` as a structure holding the backing list
`_values`.  Operations that can raise at runtime return `Except`; operations
that may mutate return the post-state alongside the result, so that frame
properties (state unchanged on failure) are statable.  The single error kind
the spec calls `EmptyStackError` is the `IndexError` the source raises from
`pop`/`peek` on an empty stack.
-/

namespace Qilin

/-- Models the single error kind of the design (the spec's `EmptyStackError`):
in the source it is the `IndexError` raised by `pop`/`peek` on an empty stack,
carrying a message string. -/
inductive EmptyStackError : Type where
  | indexError : String → EmptyStackError
deriving DecidableEq, Repr

/-- Models Python's `TypeError`, raised when hashing an unhashable object. -/
inductive PyTypeError : Type where
  | typeError : String → PyTypeError
deriving DecidableEq, Repr

/-- `ArrayStack` from `concrete.py`: the single slot `_values` is the backing
list; the end of the list is the top of the stack. -/
structure ArrayStack (T : Type) where
  _values : List T
deriving DecidableEq, Repr

namespace ArrayStack

variable {T U : Type}

/-- `__init__` with no iterable: `self._values = []`. -/
def mkDefault : ArrayStack T := ⟨[]⟩

/-- `__init__(iterable)`: `self._values = []`, then `buffered = list(iterable)`
(a value copy of the source sequence), then `self._values.extend(buffered)`. -/
def ofIterable (iterable : List T) : ArrayStack T :=
  let buffered : List T := iterable
  ⟨[] ++ buffered⟩

/-- `__len__`: `self._values.__len__()`. -/
def length (s : ArrayStack T) : Nat := s._values.length

/-- `size` property: `self.__len__()`. -/
def size (s : ArrayStack T) : Nat := s.length

/-- `is_empty` (from `base.py`): `self.__len__() == 0`. -/
def is_empty (s : ArrayStack T) : Bool := s.length == 0

/-- `__bool__` (from `base.py`): `not self.is_empty()`. -/
def toBool (s : ArrayStack T) : Bool := !s.is_empty

/-- `push(value)`: `self._values.append(value)` — appends at the end. -/
def push (s : ArrayStack T) (value : T) : ArrayStack T :=
  ⟨s._values ++ [value]⟩

/-- CPython `list.pop()` with no index: raises `IndexError` on an empty list,
otherwise removes and returns the last element. -/
def listPop (l : List T) : Except EmptyStackError (T × List T) :=
  match l.getLast? with
  | none => Except.error (EmptyStackError.indexError "pop from empty list")
  | some v => Except.ok (v, l.dropLast)

/-- CPython `l[-1]`: raises `IndexError` on an empty list, otherwise returns
the last element. -/
def listGetLastIdx (l : List T) : Except EmptyStackError T :=
  match l.getLast? with
  | none => Except.error (EmptyStackError.indexError "list index out of range")
  | some v => Except.ok v

/-- `pop()`: `if self.is_empty(): raise IndexError("pop from an empty stack")`
then `return self._values.pop()`.  Returns the result together with the
post-state of the stack. -/
def pop (s : ArrayStack T) : Except EmptyStackError T × ArrayStack T :=
  if s.is_empty then
    (Except.error (EmptyStackError.indexError "pop from an empty stack"), s)
  else
    match listPop s._values with
    | Except.ok (v, rest) => (Except.ok v, ⟨rest⟩)
    | Except.error e => (Except.error e, s)

/-- `peek()`: `if self.is_empty(): raise IndexError("peek from an empty stack")`
then `return self._values[-1]`.  Returns the result together with the
post-state of the stack (peek never mutates the backing list). -/
def peek (s : ArrayStack T) : Except EmptyStackError T × ArrayStack T :=
  if s.is_empty then
    (Except.error (EmptyStackError.indexError "peek from an empty stack"), s)
  else
    (listGetLastIdx s._values, s)

/-- `clear()`: `self._values[:] = []`. -/
def clear (s : ArrayStack T) : ArrayStack T :=
  ⟨[]⟩

/-- The generator body of `__iter__`: `for index in range(len - 1, -1, -1):
yield self._values[index]`, counting the index down.  `iterFrom l n` is the
sequence the loop yields with `n` indices still to visit (indices `n-1 … 0`). -/
def iterFrom (l : List T) : Nat → List T
  | 0 => []
  | n + 1 =>
    match l.get? n with
    | some v => v :: iterFrom l n
    | none => iterFrom l n

/-- `__iter__`: a fresh traversal of the backing list from the last index down
to index 0 (top to bottom).  Each call starts from a fresh cursor
`len(self._values) - 1`, so traversals are independent and restartable. -/
def iter (s : ArrayStack T) : List T :=
  iterFrom s._values s._values.length

/-- Pushing a list of values in order, left to right (`for v in vs: s.push(v)`). -/
def pushAll (s : ArrayStack T) (vs : List T) : ArrayStack T :=
  vs.foldl push s

/-- The universe of Python objects an `ArrayStack T` can be compared against:
either another `ArrayStack T`, or a value of any other type `U`. -/
inductive Obj (T U : Type) : Type where
  | stack : ArrayStack T → Obj T U
  | nonStack : U → Obj T U

/-- The result of `__eq__`: either a boolean, or Python's `NotImplemented`
sentinel (the "not comparable" signal — not an exception). -/
inductive EqResult : Type where
  | boolResult : Bool → EqResult
  | notImplemented : EqResult
deriving DecidableEq, Repr

/-- `__eq__(other)`: `if not isinstance(other, ArrayStack): return
NotImplemented`; else `return self._values == other._values` (element-wise list
equality using T's own equality). -/
def eqObj [DecidableEq T] (s : ArrayStack T) (other : Obj T U) : EqResult :=
  match other with
  | Obj.stack t => EqResult.boolResult (decide (s._values = t._values))
  | Obj.nonStack _ => EqResult.notImplemented

/-- The class attribute `__hash__`: set to `None` in the source ("stacks are
mutable so they are not hashable"). -/
def hashDunder (T : Type) : Option (ArrayStack T → Int) := none

/-- Python's `hash(s)` protocol applied to an `ArrayStack`: if the type's
`__hash__` is `None`, `hash()` raises `TypeError: unhashable type`; otherwise
it calls the function. -/
def pyHash (s : ArrayStack T) : Except PyTypeError Int :=
  match hashDunder T with
  | none => Except.error (PyTypeError.typeError "unhashable type: ArrayStack")
  | some f => Except.ok (f s)

end ArrayStack

/-! ## Heap model for aliasing (claim about defensive copying)

Python lists live on the heap and variables hold references.  To state that
the constructor's backing list is an independent defensive copy, we model a
heap of lists addressed by naturals, with a bump allocator.  A stack instance
is identified by the address of its `_values` list. -/

/-- A heap of Python lists: `contents a` is the list stored at address `a`;
addresses `≥ next` are unallocated. -/
structure Heap (T : Type) where
  contents : Nat → List T
  next : Nat

namespace Heap

variable {T : Type}

/-- Overwrite the list stored at address `a` (an in-place list mutation). -/
def write (h : Heap T) (a : Nat) (l : List T) : Heap T :=
  Heap.mk (fun b => if b = a then l else h.contents b) h.next

/-- Allocate a fresh list with contents `l`; returns the new heap and the
fresh address. -/
def alloc (h : Heap T) (l : List T) : Heap T × Nat :=
  (Heap.mk (fun b => if b = h.next then l else h.contents b) (h.next + 1), h.next)

end Heap

/-- `__init__(iterable)` at the heap level, with the source sequence living at
address `src`: `self._values = []` allocates a fresh list; `buffered =
list(iterable)` reads a value copy of the source's current contents;
`self._values.extend(buffered)` mutates only the fresh list.  Returns the new
heap and the address of the stack's backing list. -/
def initFromSeq (h : Heap T) (src : Nat) : Heap T × Nat :=
  let p := Heap.alloc h []
  let h1 := p.1
  let valuesAddr := p.2
  let buffered := h.contents src
  (h1.write valuesAddr (h1.contents valuesAddr ++ buffered), valuesAddr)

end Qilin

namespace Qilin

/-! ## Helper lemmas -/

theorem iterFrom_eq_take_reverse (l : List T) :
    ∀ n, n ≤ l.length → ArrayStack.iterFrom l n = (l.take n).reverse := by
  intro n
  induction n with
  | zero => intro _; simp [ArrayStack.iterFrom]
  | succ k ih =>
    intro h
    have hk : k < l.length := h
    have hget : l.get? k = some (l.get ⟨k, hk⟩) := List.get?_eq_get hk
    have hget2 : l[k]? = some (l.get ⟨k, hk⟩) :=
      (List.get?_eq_getElem? l k).symm.trans hget
    rw [ArrayStack.iterFrom, hget, ih (Nat.le_of_lt hk), List.take_succ, hget2]
    simp only [Option.toList_some, List.reverse_append, List.reverse_cons,
      List.reverse_nil, List.nil_append, List.singleton_append]

theorem iter_eq_reverse (s : ArrayStack T) : s.iter = s._values.reverse := by
  have := iterFrom_eq_take_reverse s._values s._values.length (Nat.le_refl _)
  simpa [ArrayStack.iter, List.take_length] using this

theorem pushAll_values (vs : List T) :
    ∀ l : List T, (ArrayStack.pushAll ⟨l⟩ vs)._values = l ++ vs := by
  induction vs with
  | nil => intro l; simp [ArrayStack.pushAll]
  | cons v vs ih =>
    intro l
    have step : ArrayStack.pushAll (⟨l⟩ : ArrayStack T) (v :: vs)
        = ArrayStack.pushAll ⟨l ++ [v]⟩ vs := rfl
    rw [step, ih (l ++ [v])]
    simp

end Qilin


namespace Qilin

/-! ## Further helper lemmas -/

theorem eq_of_values (s t : ArrayStack T) (h : s._values = t._values) :
    s = t := by
  cases s
  cases t
  cases h
  rfl

theorem is_empty_concat_false (l : List T) (v : T) :
    (ArrayStack.mk (l ++ [v])).is_empty = false := by
  simp [ArrayStack.is_empty, ArrayStack.length]

theorem pop_concat (l : List T) (v : T) :
    (ArrayStack.mk (l ++ [v])).pop = (Except.ok v, ArrayStack.mk l) := by
  simp [ArrayStack.pop, is_empty_concat_false, ArrayStack.listPop,
    List.getLast?_concat, List.dropLast_concat]

theorem peek_concat (l : List T) (v : T) :
    (ArrayStack.mk (l ++ [v])).peek = (Except.ok v, ArrayStack.mk (l ++ [v])) := by
  simp [ArrayStack.peek, is_empty_concat_false, ArrayStack.listGetLastIdx,
    List.getLast?_concat]

/-! ## Claim theorems -/

/-- Claim C1: for every stack with `size() == 0` (freshly constructed or
emptied by `clear()`), `pop()` and `peek()` fail with the `EmptyStackError`
error kind — an explicit, distinguishable error constructor, never a sentinel
value or silent no-op — and for every stack with `size() > 0` they succeed. -/
theorem claim1_empty_pop_peek_error_nonempty_ok (T : Type) (s : ArrayStack T) :
    (s.size = 0 →
      (∃ e, s.pop.1 = Except.error e) ∧ (∃ e, s.peek.1 = Except.error e)) ∧
    ((∃ e, s.clear.pop.1 = Except.error e) ∧
      (∃ e, s.clear.peek.1 = Except.error e)) ∧
    (0 < s.size →
      (∃ v, s.pop.1 = Except.ok v) ∧ (∃ v, s.peek.1 = Except.ok v)) := by
  obtain ⟨l⟩ := s
  refine ⟨?_, ⟨⟨_, rfl⟩, ⟨_, rfl⟩⟩, ?_⟩
  · intro h
    have hl : l = [] := List.length_eq_zero.mp h
    subst hl
    exact ⟨⟨_, rfl⟩, ⟨_, rfl⟩⟩
  · intro h
    have hl : l ≠ [] := by
      intro hnil
      subst hnil
      simp [ArrayStack.size, ArrayStack.length] at h
    obtain ⟨l', a, rfl⟩ : ∃ l' a, l = l' ++ [a] :=
      ⟨l.dropLast, l.getLast hl, (List.dropLast_append_getLast hl).symm⟩
    exact ⟨⟨a, by rw [pop_concat]⟩, ⟨a, by rw [peek_concat]⟩⟩

/-- Witness for C1 at concrete stacks `[]` and `[5]`. -/
theorem claim1_witness :
    ((∃ e, (ArrayStack.mk ([] : List Nat)).pop.1 = Except.error e) ∧
      (∃ e, (ArrayStack.mk ([] : List Nat)).peek.1 = Except.error e)) ∧
    ((∃ v, (ArrayStack.mk [5]).pop.1 = Except.ok v) ∧
      (∃ v, (ArrayStack.mk [5]).peek.1 = Except.ok v)) := by
  have h0 := claim1_empty_pop_peek_error_nonempty_ok Nat ⟨[]⟩
  have h1 := claim1_empty_pop_peek_error_nonempty_ok Nat ⟨[5]⟩
  exact ⟨h0.1 rfl, h1.2.2 (by decide)⟩

/-- Claim C2: pushing `v` and then immediately popping returns `v` and leaves
the stack exactly as it was before the push: `pop(push(s, v)) == s`. -/
theorem claim2_pop_push_inverse (T : Type) (s : ArrayStack T) (v : T) :
    (s.push v).pop = (Except.ok v, s) := by
  obtain ⟨l⟩ := s
  have hpush : ArrayStack.push (ArrayStack.mk l) v = ArrayStack.mk (l ++ [v]) :=
    rfl
  rw [hpush, pop_concat]

/-- Claim C3: iterating a stack with backing array `[a, b, c]` (c the top)
yields exactly `c, b, a`; in general iteration enumerates the backing array
from index `n-1` down to `0` (the reverse of bottom-to-top order); and a
second full iteration of the unchanged stack yields the same sequence (each
`__iter__` call is an independent fresh traversal). -/
theorem claim3_iteration_order (T : Type) (a b c : T) (s : ArrayStack T) :
    (ArrayStack.mk [a, b, c]).iter = [c, b, a] ∧
    s.iter = s._values.reverse ∧
    s.iter = s.iter := by
  refine ⟨?_, iter_eq_reverse s, rfl⟩
  rw [iter_eq_reverse]
  rfl

/-- Claim C4: constructing from a source sequence makes that sequence the
backing array verbatim (bottom-to-top), so the last source element is the top
(`peek`) and the size is the source length; an empty source, like default
construction, yields an empty stack. -/
theorem claim4_construct_from_sequence (T : Type) (l : List T) (x : T) :
    (ArrayStack.ofIterable l)._values = l ∧
    (ArrayStack.ofIterable l).size = l.length ∧
    (ArrayStack.ofIterable (l ++ [x])).peek.1 = Except.ok x ∧
    ArrayStack.ofIterable ([] : List T) = ArrayStack.mkDefault ∧
    (ArrayStack.mkDefault : ArrayStack T).size = 0 := by
  refine ⟨rfl, rfl, ?_, rfl, rfl⟩
  have hof : ArrayStack.ofIterable (l ++ [x]) = ArrayStack.mk (l ++ [x]) := rfl
  rw [hof, peek_concat]

/-- Claim C5: two array-backed stacks compare equal (a `True` result from
`__eq__`) exactly when their backing arrays are element-wise equal in the same
bottom-to-top positions; comparing against a non-stack value returns the
`NotImplemented` not-comparable signal — a normal return value, never a
raised type error. -/
theorem claim5_equality (T U : Type) [DecidableEq T] (s t : ArrayStack T)
    (x : U) :
    (ArrayStack.eqObj s (ArrayStack.Obj.stack t : ArrayStack.Obj T U)
        = ArrayStack.EqResult.boolResult true ↔ s._values = t._values) ∧
    ArrayStack.eqObj s (ArrayStack.Obj.nonStack x : ArrayStack.Obj T U)
        = ArrayStack.EqResult.notImplemented := by
  constructor
  · simp [ArrayStack.eqObj]
  · rfl

/-- Claim C6: on an empty stack a failed `pop()` or `peek()` returns an error
and leaves the stack state completely unchanged — the operations fail before
mutating anything. -/
theorem claim6_failed_pop_peek_frame (T : Type) (s : ArrayStack T)
    (h : s.size = 0) :
    s.pop.2 = s ∧ s.peek.2 = s ∧
    (∃ e, s.pop.1 = Except.error e) ∧ (∃ e, s.peek.1 = Except.error e) := by
  obtain ⟨l⟩ := s
  have hl : l = [] := List.length_eq_zero.mp h
  subst hl
  exact ⟨rfl, rfl, ⟨_, rfl⟩, ⟨_, rfl⟩⟩

/-- Witness for C6 at the concrete empty stack over `Nat`. -/
theorem claim6_witness :
    (ArrayStack.mk ([] : List Nat)).pop.2 = ArrayStack.mk ([] : List Nat) ∧
    (ArrayStack.mk ([] : List Nat)).peek.2 = ArrayStack.mk ([] : List Nat) ∧
    (∃ e, (ArrayStack.mk ([] : List Nat)).pop.1 = Except.error e) ∧
    (∃ e, (ArrayStack.mk ([] : List Nat)).peek.1 = Except.error e) :=
  claim6_failed_pop_peek_frame Nat ⟨[]⟩ rfl

/-- Claim C7: at every state, `is_empty()` holds exactly when `size() == 0`,
boolean coercion is the negation of `is_empty()`, and `size()` and `length()`
always return the same value. -/
theorem claim7_size_empty_bool_consistency (T : Type) (s : ArrayStack T) :
    (s.is_empty = true ↔ s.size = 0) ∧
    s.toBool = !s.is_empty ∧
    s.size = s.length := by
  refine ⟨?_, rfl, rfl⟩
  simp [ArrayStack.is_empty, ArrayStack.size, ArrayStack.length]

/-- Claim C8: pushing `v1, …, vn` in order onto an initially empty stack with
no intervening pops gives `peek() == vn` and `size() == n` (the non-empty case
is stated as `vs ++ [x]`, so `x` is the last value pushed). -/
theorem claim8_push_sequence (T : Type) (vs : List T) (x : T) :
    ((ArrayStack.mkDefault : ArrayStack T).pushAll (vs ++ [x])).peek.1
        = Except.ok x ∧
    ((ArrayStack.mkDefault : ArrayStack T).pushAll vs).size = vs.length := by
  have h1 : ((ArrayStack.mkDefault : ArrayStack T).pushAll (vs ++ [x]))
      = ArrayStack.mk (vs ++ [x]) := by
    refine eq_of_values _ _ ?_
    simpa [ArrayStack.mkDefault] using pushAll_values (vs ++ [x]) ([] : List T)
  have h2 : ((ArrayStack.mkDefault : ArrayStack T).pushAll vs)._values = vs := by
    simpa [ArrayStack.mkDefault] using pushAll_values vs ([] : List T)
  constructor
  · rw [h1, peek_concat]
  · simp [ArrayStack.size, ArrayStack.length, h2]

/-- Claim C9: hashing any stack fails: the type's `__hash__` slot is `None`,
so Python's `hash()` protocol raises `TypeError` for every instance,
regardless of contents. -/
theorem claim9_unhashable (T : Type) (s : ArrayStack T) :
    ArrayStack.pyHash s
      = Except.error (PyTypeError.typeError "unhashable type: ArrayStack") := rfl

/-- Claim C10: constructing from a source sequence allocates a fresh backing
list distinct from the source's address, whose contents are a copy of the
source's; writing to the source afterwards does not change the stack's backing
list, writing to the stack's backing list does not change the source, and a
second construction never reuses the first stack's backing address. -/
theorem claim10_defensive_copy (T : Type) (h : Heap T) (src : Nat)
    (hsrc : src < h.next) (l1 l2 : List T) :
    (initFromSeq h src).2 ≠ src ∧
    (initFromSeq h src).1.contents (initFromSeq h src).2 = h.contents src ∧
    ((initFromSeq h src).1.write src l1).contents (initFromSeq h src).2
      = (initFromSeq h src).1.contents (initFromSeq h src).2 ∧
    ((initFromSeq h src).1.write (initFromSeq h src).2 l2).contents src
      = (initFromSeq h src).1.contents src ∧
    (initFromSeq (initFromSeq h src).1 src).2 ≠ (initFromSeq h src).2 := by
  have hne : h.next ≠ src := Nat.ne_of_gt hsrc
  have hne2 : src ≠ h.next := Nat.ne_of_lt hsrc
  refine ⟨?_, ?_, ?_, ?_, ?_⟩ <;>
    simp [initFromSeq, Heap.alloc, Heap.write, hne, hne2]

/-- Witness for C10 on a concrete one-address heap holding `[1, 2, 3]`. -/
theorem claim10_witness :
    (initFromSeq (Heap.mk (fun a => if a = 0 then [1, 2, 3] else []) 1) 0).2
        ≠ 0 ∧
    (initFromSeq (Heap.mk (fun a => if a = 0 then [1, 2, 3] else []) 1) 0).1.contents
        (initFromSeq (Heap.mk (fun a => if a = 0 then [1, 2, 3] else []) 1) 0).2
      = [1, 2, 3] := by
  have hmain := claim10_defensive_copy Nat
    (Heap.mk (fun a => if a = 0 then [1, 2, 3] else []) 1) 0 (by decide) [9] [7]
  exact ⟨hmain.1, hmain.2.1.trans rfl⟩

end Qilin
